import Mathlib

/-!
# Verification of the Mafia game engine (`src/main.py`)

A shallow embedding of the game-state data model and the pure game-logic
operations of the Discord Mafia bot: role assignment, night resolution,
day-vote tallying, win evaluation, ballot submission, and the night
auto-resolve control flow.  Python `dict`s are modelled as
insertion-ordered association lists (matching CPython's ordered-dict
semantics), Python `set`s as duplicate-free lists, and `random.choice` /
`random.shuffle` as explicit parameters (an index into the candidate
list, resp. an arbitrary input ordering).  Participant ids are `Int`
because the mafia ballot dictionary uses the sentinel value `-1` for
"skip the kill".
-/

namespace Mafia

/-- `Role` enum of `main.py`. -/
inductive Role where
  | citizen | mafia | doctor | police
deriving DecidableEq, Repr

/-- `GamePhase` enum of `main.py`. -/
inductive GamePhase where
  | waiting | registration | night | day | voting | ended
deriving DecidableEq, Repr

/-- `Player` dataclass: the fields game logic reads, plus `isDummy`
(`isinstance(player.member, DummyMember)` in the source). -/
structure Player where
  id : Int
  name : String
  role : Role
  is_alive : Bool
  doctor_self_save_used : Bool
  isDummy : Bool
deriving DecidableEq, Repr

/-- The fields of the `GameState` dataclass that the game logic mutates.
`players` is the insertion-ordered `id -> Player` dict, `mafia_votes`
the `voter_id -> target_id` dict (`-1` = skip sentinel), `day_votes`
the `voter_id -> Optional[target_id]` dict (`none` = skip),
`night_actions_submitted` the set of actor ids that already submitted. -/
structure GameState where
  phase : GamePhase
  players : List Player
  round_number : Nat
  mafia_votes : List (Int × Int)
  mafia_target : Option Int
  doctor_save : Option Int
  night_actions_expected : Nat
  night_actions_received : Nat
  night_auto_end_triggered : Bool
  night_actions_submitted : List Int
  mafia_skips_used : Nat
  day_votes : List (Int × Option Int)
  test_mode : Bool
deriving DecidableEq, Repr

/-- Insertion-ordered dict write: an existing key keeps its position
(CPython dict update), a new key is appended. -/
def dictSet {β : Type} : List (Int × β) → Int → β → List (Int × β)
  | [], k, v => [(k, v)]
  | (k₀, v₀) :: rest, k, v =>
      if k₀ = k then (k₀, v) :: rest else (k₀, v₀) :: dictSet rest k v

/-- `counts[v] = counts.get(v, 0) + 1` on an insertion-ordered dict. -/
def bump {α : Type} [DecidableEq α] : List (α × Nat) → α → List (α × Nat)
  | [], v => [(v, 1)]
  | (k, c) :: rest, v =>
      if k = v then (k, c + 1) :: rest else (k, c) :: bump rest v

/-- The vote-counting loop: fold `bump` over the ballot values, yielding
the first-occurrence-ordered `value -> count` dict. -/
def tally {α : Type} [DecidableEq α] (vals : List α) : List (α × Nat) :=
  vals.foldl bump []

/-- `max(...)` over the counts; `0` on the empty list (the source only
takes the max of a non-empty dict, where all counts are `≥ 1`, so the
`0` default never changes the value at a call site). -/
def listMax (l : List Nat) : Nat := l.foldl max 0

/-- `check_win_condition`: the two faction counters. -/
def aliveMafiaCount (ps : List Player) : Nat :=
  (ps.filter (fun p => p.is_alive && decide (p.role = Role.mafia))).length

/-- `alive_citizens` in `check_win_condition`: alive players whose role
is anything but mafia. -/
def aliveOthersCount (ps : List Player) : Nat :=
  (ps.filter (fun p => p.is_alive && decide (p.role ≠ Role.mafia))).length

/-- Result of `check_win_condition`. -/
inductive WinResult where
  | citizensWin | mafiaWins | continueGame
deriving DecidableEq, Repr

/-- `end_game`: sets `game.phase = GamePhase.ENDED`. -/
def end_game (g : GameState) : GameState := { g with phase := GamePhase.ended }

/-- `check_win_condition(game)`: citizens win when no mafia is alive,
else mafia wins when alive mafia outnumber-or-equal the alive others,
else the game continues.  A win calls `end_game`. -/
def check_win_condition (g : GameState) : WinResult × GameState :=
  if aliveMafiaCount g.players = 0 then (WinResult.citizensWin, end_game g)
  else if aliveMafiaCount g.players ≥ aliveOthersCount g.players then
    (WinResult.mafiaWins, end_game g)
  else (WinResult.continueGame, g)

/-- `player_list[idx].role = r` for the player at the assignment cursor. -/
def setRole (pl : Player) (r : Role) : Player := { pl with role := r }

/-- `assign_roles`: sequential assignment over the (already shuffled)
roster — `num_mafia` mafia, then `num_doctor` doctors, then `num_police`
police, each loop guarded by `idx < len(player_list)` (so a budget in
excess of the remaining roster is silently truncated), and every
remaining player a citizen.  The shuffled order is the input list. -/
def assign_roles : List Player → Nat → Nat → Nat → List Player
  | [], _, _, _ => []
  | pl :: rest, m + 1, d, p => setRole pl Role.mafia :: assign_roles rest m d p
  | pl :: rest, 0, d + 1, p => setRole pl Role.doctor :: assign_roles rest 0 d p
  | pl :: rest, 0, 0, p + 1 => setRole pl Role.police :: assign_roles rest 0 0 p
  | pl :: rest, 0, 0, 0 => setRole pl Role.citizen :: assign_roles rest 0 0 0

/-- Number of players holding role `r`. -/
def countRole (ps : List Player) (r : Role) : Nat :=
  (ps.filter (fun q => decide (q.role = r))).length

/-- Kill by id: `game.players[target_id].is_alive = False`. -/
def killPlayer (ps : List Player) (t : Int) : List Player :=
  ps.map (fun q => if q.id = t then { q with is_alive := false } else q)

/-- Python truthiness of `Optional[int]`: `None` and `0` are falsy. -/
def truthyOptInt : Option Int → Bool
  | none => false
  | some t => decide (t ≠ 0)

/-- What the morning announcement of `start_day_phase` reports. -/
inductive DayAnnounce where
  | killed (victim : Int)
  | everyoneSafe
deriving DecidableEq, Repr

/-- `start_day_phase(game, was_saved, mafia_skipped)` restricted to game
state: early return (`none`) when force-stopped, else phase becomes DAY
and, when `game.mafia_target` is truthy and the doctor did not save the
target, that target's `alive` flips to false; in every other case the
"everyone is safe" announcement is made and nobody dies. -/
def start_day_phase (g : GameState) (was_saved : Bool) :
    Option (DayAnnounce × GameState) :=
  if g.phase = GamePhase.ended then none
  else
    let g₁ := { g with phase := GamePhase.day }
    if truthyOptInt g₁.mafia_target then
      match g₁.mafia_target with
      | some t =>
          if was_saved then some (DayAnnounce.everyoneSafe, g₁)
          else some (DayAnnounce.killed t,
            { g₁ with players := killPlayer g₁.players t })
      | none => some (DayAnnounce.everyoneSafe, g₁)
    else some (DayAnnounce.everyoneSafe, g₁)

/-- The mafia-ballot tally of `process_night_results`: the
`target_id -> count` dict built over `game.mafia_votes.values()`. -/
def mafiaVoteCounts (g : GameState) : List (Int × Nat) :=
  tally (g.mafia_votes.map Prod.snd)

/-- `max(vote_counts.values())` of `process_night_results`. -/
def mafiaMaxCount (g : GameState) : Nat :=
  listMax ((mafiaVoteCounts g).map Prod.snd)

/-- `tied_targets = [t for t, c in vote_counts.items() if c == max_count]`. -/
def mafiaTiedTargets (g : GameState) : List Int :=
  ((mafiaVoteCounts g).filter (fun tc => decide (tc.2 = mafiaMaxCount g))).map Prod.fst

/-- `random.choice(tied_targets)`, with the random draw modelled as an
arbitrary index `k` reduced modulo the list length. -/
def chooseTied (g : GameState) (k : Nat) : Int :=
  (mafiaTiedTargets g).getD (k % (mafiaTiedTargets g).length) 0

/-- `process_night_results(game)` up to the call of `start_day_phase`:
tallies `mafia_votes` (truthiness: the empty dict skips the whole
block), picks a tied top target at random, treats `-1` as the skip
sentinel (bumping `mafia_skips_used`, clearing `mafia_target`), else
stores the target; then computes
`saved = mafia_target is not None and mafia_target == doctor_save`.
Returns the updated state together with `saved`. -/
def process_night_results (g : GameState) (k : Nat) : GameState × Bool :=
  let g₁ :=
    if g.mafia_votes ≠ [] then
      let top_vote := chooseTied g k
      if top_vote = -1 then
        { g with mafia_skips_used := g.mafia_skips_used + 1,
                 mafia_target := none }
      else { g with mafia_target := some top_vote }
    else g
  let saved :=
    match g₁.mafia_target, g₁.doctor_save with
    | some t, some s => decide (t = s)
    | _, _ => false
  (g₁, saved)

/-- The tail of `process_night_results`: resolve the night, then enter
the day phase, announcing the death (if any) and applying it. -/
def nightResolve (g : GameState) (k : Nat) : Option (DayAnnounce × GameState) :=
  let (g₁, saved) := process_night_results g k
  start_day_phase g₁ saved

/-- `_delayed_night_end` inside `check_all_night_actions_done`: after
the 10 s grace sleep, return untouched if the game was force-stopped
(`phase == ENDED`), else run the night resolution. -/
def delayed_night_end (g : GameState) (k : Nat) : GameState :=
  if g.phase = GamePhase.ended then g
  else
    match nightResolve g k with
    | some (_, g₁) => g₁
    | none => g

/-- `alive_players` of `process_voting_results`. -/
def alivePlayers (g : GameState) : List Player :=
  g.players.filter (fun q => q.is_alive)

/-- The ballot of each living participant:
`game.day_votes.get(player.member.id, None)` — an absent voter
defaults to skip (`none`). -/
def dayBallots (g : GameState) : List (Option Int) :=
  (alivePlayers g).map (fun q => (g.day_votes.lookup q.id).getD none)

/-- `vote_counts` of `process_voting_results`: ballot value → count. -/
def dayVoteCounts (g : GameState) : List (Option Int × Nat) :=
  tally (dayBallots g)

/-- `non_skip_votes = {k: v for k, v in vote_counts.items() if k is not None}`. -/
def nonSkipCounts (g : GameState) : List (Int × Nat) :=
  (dayVoteCounts g).filterMap
    (fun kv => match kv.1 with | some t => some (t, kv.2) | none => none)

/-- `skip_votes = vote_counts.get(None, 0)`. -/
def skipVotesCount (g : GameState) : Nat :=
  ((dayVoteCounts g).lookup none).getD 0

/-- `max_votes = max(non_skip_votes.values())` (only read when
`non_skip_votes` is non-empty). -/
def dayMaxVotes (g : GameState) : Nat :=
  listMax ((nonSkipCounts g).map Prod.snd)

/-- `top_voted = [k for k, v in non_skip_votes.items() if v == max_votes]`. -/
def dayTopVoted (g : GameState) : List Int :=
  ((nonSkipCounts g).filter (fun tc => decide (tc.2 = dayMaxVotes g))).map Prod.fst

/-- Which of the four result messages `process_voting_results` posts. -/
inductive VoteOutcome where
  | skipped
  | eliminated (t : Int)
  | tie
  | everyoneSkipped
deriving DecidableEq, Repr

/-- `process_voting_results(game)` restricted to game state: early
return (`none`) when force-stopped, else tally the living players'
ballots (absent = skip); if any non-skip votes exist, "skipped" when
`skip_votes > max_votes`, elimination of `top_voted[0]` when the top is
unique and `max_votes > skip_votes`, otherwise "tie"; with no non-skip
votes at all, "Everyone skipped".  Only an elimination touches the
participants. -/
def process_voting_results (g : GameState) : Option (VoteOutcome × GameState) :=
  if g.phase = GamePhase.ended then none
  else
    if nonSkipCounts g ≠ [] then
      if dayMaxVotes g < skipVotesCount g then some (VoteOutcome.skipped, g)
      else if (dayTopVoted g).length = 1 ∧ skipVotesCount g < dayMaxVotes g then
        some (VoteOutcome.eliminated ((dayTopVoted g).headD 0),
          { g with players := killPlayer g.players ((dayTopVoted g).headD 0) })
      else some (VoteOutcome.tie, g)
    else some (VoteOutcome.everyoneSkipped, g)

/-- Result of the second guard pair in `MafiaConfirmView.confirm`. -/
inductive NightSubmitResult where
  | duplicate | accepted
deriving DecidableEq, Repr

/-- `MafiaConfirmView.confirm`: a second submission by an actor already
in `night_actions_submitted` is rejected before any state is touched;
otherwise the ballot is recorded (`-1` when the choice was "skip the
kill"), the actor is added to the submitted set, and
`night_actions_received` is incremented. -/
def mafiaConfirm (g : GameState) (playerId : Int) (targetId : Option Int) :
    NightSubmitResult × GameState :=
  if playerId ∈ g.night_actions_submitted then (NightSubmitResult.duplicate, g)
  else
    let tv : Int := match targetId with | none => -1 | some t => t
    (NightSubmitResult.accepted,
      { g with mafia_votes := dictSet g.mafia_votes playerId tv,
               night_actions_submitted := g.night_actions_submitted ++ [playerId],
               night_actions_received := g.night_actions_received + 1 })

/-- Result of `VotingView.create_vote_callback`'s callback. -/
inductive DayVoteResult where
  | notInGame | deadVoter | recorded
deriving DecidableEq, Repr

/-- `interaction.user.id in game.players` lookup. -/
def findPlayer (g : GameState) (pid : Int) : Option Player :=
  g.players.find? (fun q => q.id == pid)

/-- The day-vote button callback built by
`VotingView.create_vote_callback(target_id)`: rejects a non-player or a
dead voter, and otherwise unconditionally writes
`game.day_votes[voter] = target_id` — there is no duplicate-submission
check, a repeat vote silently replaces the earlier ballot. -/
def day_vote_callback (g : GameState) (voterId : Int) (targetId : Int) :
    DayVoteResult × GameState :=
  match findPlayer g voterId with
  | none => (DayVoteResult.notInGame, g)
  | some q =>
      if q.is_alive = false then (DayVoteResult.deadVoter, g)
      else (DayVoteResult.recorded,
        { g with day_votes := dictSet g.day_votes voterId (some targetId) })

/-- `alive_mafia` list of `start_night_phase`. -/
def aliveMafiaList (ps : List Player) : List Player :=
  ps.filter (fun q => decide (q.role = Role.mafia) && q.is_alive)

/-- `alive_doctors` list of `start_night_phase`. -/
def aliveDoctorList (ps : List Player) : List Player :=
  ps.filter (fun q => decide (q.role = Role.doctor) && q.is_alive)

/-- `alive_police` list of `start_night_phase`. -/
def alivePoliceList (ps : List Player) : List Player :=
  ps.filter (fun q => decide (q.role = Role.police) && q.is_alive)

/-- A night-action-capable role. -/
def isSpecial (r : Role) : Bool :=
  decide (r = Role.mafia) || decide (r = Role.doctor) || decide (r = Role.police)

/-- The `game.night_actions_expected` computation of `start_night_phase`:
in test mode only non-dummy (human) alive special-role players are
counted, otherwise all alive special-role players. -/
def night_actions_expected_calc (ps : List Player) (testMode : Bool) : Nat :=
  if testMode then
    ((aliveMafiaList ps).filter (fun q => !q.isDummy)).length +
    ((aliveDoctorList ps).filter (fun q => !q.isDummy)).length +
    ((alivePoliceList ps).filter (fun q => !q.isDummy)).length
  else
    (aliveMafiaList ps).length + (aliveDoctorList ps).length +
    (alivePoliceList ps).length

/-- The bot-police auto-investigation loop of `start_night_phase`: each
dummy police increments `night_actions_received` when it has a living
target other than itself. -/
def botPoliceReceived (ps : List Player) : Nat :=
  ((alivePoliceList ps).filter (fun q => q.isDummy)).foldl
    (fun acc q =>
      acc + (if ps.filter (fun r => r.is_alive && r.id != q.id) ≠ [] then 1 else 0)) 0

/-- Total increment applied to `game.night_actions_received` by the
test-mode auto-action blocks of `start_night_phase`: every dummy mafia
(when a living non-mafia target exists), every dummy doctor (when any
player is alive), and every dummy police with a living other player,
each bump the received counter by one. -/
def botAutoReceived (ps : List Player) (testMode : Bool) : Nat :=
  if testMode then
    (if (aliveMafiaList ps).filter (fun q => q.isDummy) ≠ [] ∧
        ps.filter (fun q => q.is_alive && decide (q.role ≠ Role.mafia)) ≠ [] then
      ((aliveMafiaList ps).filter (fun q => q.isDummy)).length
    else 0) +
    (if ps.filter (fun q => q.is_alive) ≠ [] then
      ((aliveDoctorList ps).filter (fun q => q.isDummy)).length
    else 0) +
    botPoliceReceived ps
  else 0

/-- The night auto-resolution control state, abstracted to the fields
the completion paths read and write: `phase`, the one-shot
`night_auto_end_triggered` latch, the `received`/`expected` counters, a
flag recording that a 10 s grace sleep is pending, and a ghost counter
of how many times `process_night_results` has run this round. -/
structure NightCtl where
  phase : GamePhase
  latch : Bool
  received : Nat
  expected : Nat
  gracePending : Bool
  resolvedCount : Nat
deriving DecidableEq, Repr

/-- The four event sources that can interleave within one night round
(the asyncio scheduler interleaves them only at await points, so each
handler body below is atomic, exactly as in the source). -/
inductive NightEvent where
  | quorumCheck
  | graceWake
  | manualEnd
  | forceStop
deriving DecidableEq, Repr

/-- One event of the night round.
`quorumCheck` is the body of `check_all_night_actions_done` (equally the
quorum test of the polling loop in `start_night_phase`): it returns
unless `phase == NIGHT`, the latch is unset, and
`received >= expected`; when it proceeds it sets the latch and leaves a
grace sleep pending.  `graceWake` is the wake-up of that sleep: it
re-checks only `phase == ENDED` and otherwise runs
`process_night_results` (which moves the phase to DAY).  `manualEnd` is
`NightEndView.end_night_button`: it checks only `phase == NIGHT` — not
the latch — and runs `process_night_results`.  `forceStop` sets
`phase = ENDED`. -/
def nightStep (s : NightCtl) : NightEvent → NightCtl
  | NightEvent.quorumCheck =>
      if s.phase = GamePhase.night ∧ s.latch = false ∧ s.expected ≤ s.received then
        { s with latch := true, gracePending := true }
      else s
  | NightEvent.graceWake =>
      if s.gracePending then
        if s.phase = GamePhase.ended then { s with gracePending := false }
        else { s with gracePending := false, phase := GamePhase.day,
                      resolvedCount := s.resolvedCount + 1 }
      else s
  | NightEvent.manualEnd =>
      if s.phase = GamePhase.night then
        { s with phase := GamePhase.day, resolvedCount := s.resolvedCount + 1 }
      else s
  | NightEvent.forceStop => { s with phase := GamePhase.ended }

/-- Run a whole interleaving of night-round events. -/
def nightRun (s : NightCtl) (es : List NightEvent) : NightCtl :=
  es.foldl nightStep s

/-- Fixture helper. -/
def mkPlayer (i : Int) (nm : String) (r : Role) (alive dummy : Bool) : Player :=
  { id := i, name := nm, role := r, is_alive := alive,
    doctor_self_save_used := false, isDummy := dummy }

/-- A blank in-night session used by the concrete witnesses. -/
def baseGame : GameState :=
  { phase := GamePhase.night, players := [], round_number := 1,
    mafia_votes := [], mafia_target := none, doctor_save := none,
    night_actions_expected := 0, night_actions_received := 0,
    night_auto_end_triggered := false, night_actions_submitted := [],
    mafia_skips_used := 0, day_votes := [], test_mode := false }

/-- Six-player roster for the role-assignment witness. -/
def exRoster6 : List Player :=
  [mkPlayer 1 "A" Role.citizen true false, mkPlayer 2 "B" Role.citizen true false,
   mkPlayer 3 "C" Role.citizen true false, mkPlayer 4 "D" Role.citizen true false,
   mkPlayer 5 "E" Role.citizen true false, mkPlayer 6 "F" Role.citizen true false]

/-- Night fixture: mafia 1 votes to kill citizen 2, doctor saves nobody. -/
def exNightG : GameState :=
  { baseGame with
      players := [mkPlayer 1 "A" Role.mafia true false,
                  mkPlayer 2 "B" Role.citizen true false,
                  mkPlayer 3 "C" Role.doctor true false],
      mafia_votes := [(1, 2)] }

/-- Voting fixture: five living players; 1, 3 and 4 vote for 2, player 5
skips, player 2 abstains (defaults to skip). -/
def exVoteG : GameState :=
  { baseGame with
      phase := GamePhase.voting,
      players := [mkPlayer 1 "A" Role.citizen true false,
                  mkPlayer 2 "B" Role.mafia true false,
                  mkPlayer 3 "C" Role.citizen true false,
                  mkPlayer 4 "D" Role.doctor true false,
                  mkPlayer 5 "E" Role.police true false],
      day_votes := [(1, some 2), (3, some 2), (4, some 2), (5, none)] }

/-- `exVoteG` after player 2 is voted out. -/
def exVoteGKilled : GameState :=
  { exVoteG with players := killPlayer exVoteG.players 2 }

/-- Day-vote fixture for the duplicate-submission counterexample. -/
def exDayG : GameState :=
  { baseGame with
      phase := GamePhase.voting,
      players := [mkPlayer 1 "A" Role.citizen true false,
                  mkPlayer 2 "B" Role.citizen true false,
                  mkPlayer 3 "C" Role.mafia true false] }

/-- `exDayG` after player 1's first ballot (for player 2). -/
def exDayG1 : GameState := (day_vote_callback exDayG 1 2).2

/-- `exDayG` with player 1 already in the night submitted-actor set. -/
def exSubG : GameState := { exDayG with night_actions_submitted := [1] }

/-- One alive mafia versus one alive citizen (the spec's mafia-win
boundary scenario). -/
def exWinG : GameState :=
  { baseGame with
      players := [mkPlayer 1 "A" Role.mafia true false,
                  mkPlayer 2 "B" Role.citizen true false] }

/-- Per-event-trace invariant of the night auto-resolution control
state: an unset latch means nothing has fired yet, and the resolutions
already performed plus the pending grace wake-up never exceed one. -/
def ctlInv (s : NightCtl) : Prop :=
  (s.latch = false → s.gracePending = false ∧ s.resolvedCount = 0) ∧
  s.resolvedCount + (if s.gracePending then 1 else 0) ≤ 1

/-- Quorum fixture: one human mafia (who has not yet submitted) and one
dummy doctor, in test mode. -/
def exC8 : List Player :=
  [mkPlayer 1 "A" Role.mafia true false, mkPlayer 2 "B" Role.doctor true true]

/-- Night-control fixture: quorum already reachable, nothing fired yet. -/
def ctl0 : NightCtl :=
  { phase := GamePhase.night, latch := false, received := 1, expected := 1,
    gracePending := false, resolvedCount := 0 }

end Mafia

namespace Mafia

theorem bump_ne_nil {α : Type} [DecidableEq α] (acc : List (α × Nat)) (v : α) :
    bump acc v ≠ [] := by
  cases acc with
  | nil => simp [bump]
  | cons kv rest =>
      cases kv with
      | mk k c => by_cases h : k = v <;> simp [bump, h]

theorem foldl_bump_ne_nil {α : Type} [DecidableEq α] (l : List α)
    (acc : List (α × Nat)) (h : acc ≠ []) : l.foldl bump acc ≠ [] := by
  induction l generalizing acc with
  | nil => simpa using h
  | cons x xs ih => exact ih _ (bump_ne_nil acc x)

theorem tally_ne_nil {α : Type} [DecidableEq α] (vals : List α) (h : vals ≠ []) :
    tally vals ≠ [] := by
  cases vals with
  | nil => simp at h
  | cons x xs =>
      simpa [tally] using foldl_bump_ne_nil xs (bump [] x) (bump_ne_nil [] x)

theorem foldl_max_mem (l : List Nat) (a : Nat) :
    l.foldl max a = a ∨ l.foldl max a ∈ l := by
  induction l generalizing a with
  | nil => left; rfl
  | cons x xs ih =>
    simp only [List.foldl_cons]
    rcases ih (max a x) with h | h
    · rw [h]
      rcases Nat.le_total a x with hax | hxa
      · right
        have hmax : max a x = x := by omega
        rw [hmax]
        exact List.mem_cons_self _ _
      · left
        omega
    · right
      exact List.mem_cons_of_mem _ h

theorem listMax_mem (l : List Nat) (h : l ≠ []) : listMax l ∈ l := by
  cases l with
  | nil => simp at h
  | cons x xs =>
    unfold listMax
    simp only [List.foldl_cons, Nat.zero_max]
    rcases foldl_max_mem xs x with h1 | h1

    · rw [h1]; exact List.mem_cons_self _ _
    · exact List.mem_cons_of_mem _ h1

theorem getD_mem {α : Type} (l : List α) (n : Nat) (d : α) (h : n < l.length) :
    l.getD n d ∈ l := by
  induction l generalizing n with
  | nil => simp at h
  | cons x xs ih =>
    cases n with
    | zero => simp [List.getD]
    | succ n =>
      have := ih n (by simpa using h)
      simp only [List.getD_cons_succ]
      exact List.mem_cons_of_mem _ this

theorem mafiaTiedTargets_ne_nil (g : GameState) (hv : g.mafia_votes ≠ []) :
    mafiaTiedTargets g ≠ [] := by
  have h0 : (g.mafia_votes.map Prod.snd) ≠ [] := by
    intro h; exact hv (List.map_eq_nil_iff.mp h)
  have h1 : mafiaVoteCounts g ≠ [] := tally_ne_nil _ h0
  have h2 : (mafiaVoteCounts g).map Prod.snd ≠ [] := by
    intro h; exact h1 (List.map_eq_nil_iff.mp h)
  have h3 : mafiaMaxCount g ∈ (mafiaVoteCounts g).map Prod.snd := listMax_mem _ h2
  obtain ⟨kv, hkv, hsnd⟩ := List.mem_map.mp h3
  intro hnil
  have h4 : kv ∈ (mafiaVoteCounts g).filter
      (fun tc => decide (tc.2 = mafiaMaxCount g)) :=
    List.mem_filter.mpr ⟨hkv, by simp [hsnd]⟩
  have h5 : kv.1 ∈ mafiaTiedTargets g := List.mem_map.mpr ⟨kv, h4, rfl⟩
  rw [hnil] at h5
  simp at h5

theorem chooseTied_mem_of_votes (g : GameState) (k : Nat)
    (hv : g.mafia_votes ≠ []) : chooseTied g k ∈ mafiaTiedTargets g := by
  have hne := mafiaTiedTargets_ne_nil g hv
  have hlen : 0 < (mafiaTiedTargets g).length := List.length_pos.mpr hne
  exact getD_mem _ _ _ (Nat.mod_lt _ hlen)

theorem killPlayer_frame_all (ps : List Player) (t : Int) :
    List.Forall₂ (fun q q' => q'.id = q.id ∧ q'.role = q.role ∧
      (q.id = t → q'.is_alive = false) ∧ (q.id ≠ t → q' = q))
      ps (killPlayer ps t) := by
  induction ps with
  | nil => simp [killPlayer]
  | cons hd tl ih =>
    unfold killPlayer
    simp only [List.map_cons]
    refine List.Forall₂.cons ?_ ih
    by_cases h : hd.id = t <;> simp [h]

theorem killPlayer_kills (ps : List Player) (t : Int) (q : Player)
    (hq : q ∈ killPlayer ps t) (hid : q.id = t) : q.is_alive = false := by
  obtain ⟨r, hr, rfl⟩ := List.mem_map.mp hq
  by_cases h : r.id = t
  · simp [h]
  · simp [h] at hid

theorem dictSet_lookup {β : Type} (d : List (Int × β)) (k : Int) (v : β) :
    (dictSet d k v).lookup k = some v := by
  induction d with
  | nil => simp [dictSet, List.lookup]
  | cons kv rest ih =>
    cases kv with
    | mk k₀ v₀ =>
      by_cases h : k₀ = k
      · simp [dictSet, h, List.lookup]
      · have h2 : (k == k₀) = false := by
          simp only [beq_eq_false_iff_ne, ne_eq]
          exact fun hh => h hh.symm
        simp [dictSet, h, List.lookup, h2, ih]

theorem countRole_nil (r : Role) : countRole [] r = 0 := rfl

theorem countRole_cons (q : Player) (ps : List Player) (r : Role) :
    countRole (q :: ps) r = (if q.role = r then 1 else 0) + countRole ps r := by
  by_cases h : q.role = r <;> simp [countRole, h, Nat.add_comm]

theorem countRole_assign_mafia (l : List Player) (m d p : Nat) :
    countRole (assign_roles l m d p) Role.mafia = min m l.length := by
  induction l generalizing m d p with
  | nil => simp [assign_roles, countRole_nil]
  | cons hd tl ih =>
    rcases m with _ | m <;> rcases d with _ | d <;> rcases p with _ | p <;>
      simp [assign_roles, countRole_cons, setRole, ih] <;> omega

theorem countRole_assign_doctor (l : List Player) (m d p : Nat) :
    countRole (assign_roles l m d p) Role.doctor
      = min d (l.length - min m l.length) := by
  induction l generalizing m d p with
  | nil => simp [assign_roles, countRole_nil]
  | cons hd tl ih =>
    rcases m with _ | m <;> rcases d with _ | d <;> rcases p with _ | p <;>
      simp [assign_roles, countRole_cons, setRole, ih] <;> omega

theorem countRole_assign_police (l : List Player) (m d p : Nat) :
    countRole (assign_roles l m d p) Role.police
      = min p (l.length - min (m + d) l.length) := by
  induction l generalizing m d p with
  | nil => simp [assign_roles, countRole_nil]
  | cons hd tl ih =>
    rcases m with _ | m <;> rcases d with _ | d <;> rcases p with _ | p <;>
      simp [assign_roles, countRole_cons, setRole, ih] <;> omega

theorem countRole_assign_citizen (l : List Player) (m d p : Nat) :
    countRole (assign_roles l m d p) Role.citizen
      = l.length - min (m + d + p) l.length := by
  induction l generalizing m d p with
  | nil => simp [assign_roles, countRole_nil]
  | cons hd tl ih =>
    rcases m with _ | m <;> rcases d with _ | d <;> rcases p with _ | p <;>
      simp [assign_roles, countRole_cons, setRole, ih] <;> omega

/-- C2: the win evaluation declares a town (citizens) win exactly when the
count of alive mafia is zero, declares a mafia win exactly when alive mafia
is positive and at least the count of alive non-mafia, otherwise leaves the
game running; a declared win sets the phase to ENDED, and no win leaves the
state untouched. -/
theorem check_win_condition_spec (g : GameState) :
    ((check_win_condition g).1 = WinResult.citizensWin ↔
      aliveMafiaCount g.players = 0) ∧
    ((check_win_condition g).1 = WinResult.mafiaWins ↔
      0 < aliveMafiaCount g.players ∧
      aliveOthersCount g.players ≤ aliveMafiaCount g.players) ∧
    ((check_win_condition g).1 ≠ WinResult.continueGame →
      (check_win_condition g).2.phase = GamePhase.ended) ∧
    ((check_win_condition g).1 = WinResult.continueGame →
      (check_win_condition g).2 = g) := by
  unfold check_win_condition end_game
  by_cases h0 : aliveMafiaCount g.players = 0 <;>
    by_cases h1 : aliveMafiaCount g.players ≥ aliveOthersCount g.players <;>
      simp [h0, h1, Nat.pos_of_ne_zero]



/-- Witness for C2 at the spec's boundary scenario: one alive mafia
versus one alive citizen is a mafia win and ends the game. -/
theorem check_win_condition_spec_witness :
    (check_win_condition exWinG).1 = WinResult.mafiaWins ∧
    (check_win_condition exWinG).2.phase = GamePhase.ended := by
  have h := check_win_condition_spec exWinG
  have h1 : (check_win_condition exWinG).1 = WinResult.mafiaWins :=
    h.2.1.mpr (by decide)
  refine ⟨h1, h.2.2.1 ?_⟩
  rw [h1]
  decide

/-- C4: over any (shuffled) roster, role assignment hands out exactly
`min` of the requested count and the remaining roster for mafia, then
doctor, then police, in that order, with everyone left a citizen; the
four role counts always sum to the roster size, and when
`m + d + p ≤ N` the special-role counts are exactly the configured
ones. -/
theorem assign_roles_spec (l : List Player) (m d p : Nat) :
    countRole (assign_roles l m d p) Role.mafia = min m l.length ∧
    countRole (assign_roles l m d p) Role.doctor
      = min d (l.length - min m l.length) ∧
    countRole (assign_roles l m d p) Role.police
      = min p (l.length - min (m + d) l.length) ∧
    countRole (assign_roles l m d p) Role.mafia
      + countRole (assign_roles l m d p) Role.doctor
      + countRole (assign_roles l m d p) Role.police
      + countRole (assign_roles l m d p) Role.citizen = l.length ∧
    (m + d + p ≤ l.length →
      countRole (assign_roles l m d p) Role.mafia = m ∧
      countRole (assign_roles l m d p) Role.doctor = d ∧
      countRole (assign_roles l m d p) Role.police = p ∧
      countRole (assign_roles l m d p) Role.citizen
        = l.length - (m + d + p)) := by
  have hm := countRole_assign_mafia l m d p
  have hd := countRole_assign_doctor l m d p
  have hp := countRole_assign_police l m d p
  have hc := countRole_assign_citizen l m d p
  refine ⟨hm, hd, hp, by omega, fun hle => by omega⟩

/-- Witness for C4: six players and settings m=1, d=1, p=1 yield exactly
one mafia, one doctor, one police and three citizens. -/
theorem assign_roles_spec_witness :
    countRole (assign_roles exRoster6 1 1 1) Role.mafia = 1 ∧
    countRole (assign_roles exRoster6 1 1 1) Role.doctor = 1 ∧
    countRole (assign_roles exRoster6 1 1 1) Role.police = 1 ∧
    countRole (assign_roles exRoster6 1 1 1) Role.citizen = 6 - (1 + 1 + 1) :=
  (assign_roles_spec exRoster6 1 1 1).2.2.2.2 (by decide)

/-- C6: if a force-stop has already set the phase to ENDED when the
pending night auto-resolve grace timer wakes, the timer's re-check makes
it return without running the resolution: the session state — every
participant's alive flag included — is exactly what it was. -/
theorem delayed_night_end_after_force_stop (g : GameState) (k : Nat)
    (h : g.phase = GamePhase.ended) :
    delayed_night_end g k = g ∧ (delayed_night_end g k).players = g.players := by
  constructor
  · simp [delayed_night_end, h]
  · simp [delayed_night_end, h]

/-- Witness for C6 at a concrete force-stopped session. -/
theorem delayed_night_end_after_force_stop_witness :
    delayed_night_end { exNightG with phase := GamePhase.ended } 0
      = { exNightG with phase := GamePhase.ended } :=
  (delayed_night_end_after_force_stop { exNightG with phase := GamePhase.ended }
    0 rfl).1

/-- C9: resolving a night with an empty mafia-ballot dict (and hence the
cleared `mafia_target` that `start_night_phase` establishes) selects no
target, touches no participant, and announces that everyone is safe. -/
theorem night_no_ballots_no_op (g : GameState) (k : Nat)
    (hv : g.mafia_votes = []) (ht : g.mafia_target = none)
    (hp : g.phase ≠ GamePhase.ended) :
    nightResolve g k
      = some (DayAnnounce.everyoneSafe, { g with phase := GamePhase.day }) := by
  simp [nightResolve, process_night_results, hv, start_day_phase, hp, ht,
    truthyOptInt]

/-- Witness for C9: a concrete night round in which no mafia voted. -/
theorem night_no_ballots_no_op_witness :
    nightResolve { exNightG with mafia_votes := [] } 0
      = some (DayAnnounce.everyoneSafe,
          { { exNightG with mafia_votes := [] } with phase := GamePhase.day }) :=
  night_no_ballots_no_op { exNightG with mafia_votes := [] } 0 rfl rfl (by decide)

/-- C3: night resolution tallies the mafia ballots as a multiset in
which the skip sentinel `-1` is a legal value, picks one of the targets
tied at the maximum count (the random draw ranges exactly over the tied
list), and then: a drawn sentinel increments the skip-usage counter and
kills nobody; a drawn target equal to the doctor's save is announced
"everyone safe" with no death; otherwise the drawn target's alive flag
becomes false.  (A real target id is a Discord snowflake or a dummy id
`>= 100000`, hence the non-zero hypotheses matching the source's
truthiness test on `game.mafia_target`.) -/
theorem night_resolution_spec (g : GameState) (k : Nat)
    (hp : g.phase ≠ GamePhase.ended) (hv : g.mafia_votes ≠ []) :
    chooseTied g k ∈ mafiaTiedTargets g ∧
    (chooseTied g k = -1 →
      nightResolve g k = some (DayAnnounce.everyoneSafe,
        { g with mafia_skips_used := g.mafia_skips_used + 1,
                 mafia_target := none, phase := GamePhase.day })) ∧
    (chooseTied g k ≠ -1 → chooseTied g k ≠ 0 →
      g.doctor_save = some (chooseTied g k) →
      nightResolve g k = some (DayAnnounce.everyoneSafe,
        { g with mafia_target := some (chooseTied g k),
                 phase := GamePhase.day })) ∧
    (chooseTied g k ≠ -1 → chooseTied g k ≠ 0 →
      g.doctor_save ≠ some (chooseTied g k) →
      nightResolve g k = some (DayAnnounce.killed (chooseTied g k),
        { g with mafia_target := some (chooseTied g k),
                 phase := GamePhase.day,
                 players := killPlayer g.players (chooseTied g k) }) ∧
      ∀ q ∈ killPlayer g.players (chooseTied g k),
        q.id = chooseTied g k → q.is_alive = false) := by
  refine ⟨chooseTied_mem_of_votes g k hv, ?_, ?_, ?_⟩
  · intro h1
    rcases hds : g.doctor_save with _ | s <;>
      simp [nightResolve, process_night_results, start_day_phase, h1, hv, hp,
        hds, truthyOptInt]
  · intro h1 h2 h3
    simp [nightResolve, process_night_results, start_day_phase, hv, hp, h1,
      h2, h3, truthyOptInt]
  · intro h1 h2 h3
    refine ⟨?_, fun q hq hid => killPlayer_kills _ _ q hq hid⟩
    rcases hds : g.doctor_save with _ | s
    · simp [nightResolve, process_night_results, start_day_phase, hv, hp, h1,
        h2, hds, truthyOptInt]
    · have hne : ¬(chooseTied g k = s) := by
        intro hh
        exact h3 (by rw [hds, hh])
      simp [nightResolve, process_night_results, start_day_phase, hv, hp, h1,
        h2, hds, hne, truthyOptInt]

/-- Witness for C3: mafia 1 targets citizen 2, no doctor save — player 2
is killed. -/
theorem night_resolution_spec_witness :
    nightResolve exNightG 0 = some (DayAnnounce.killed 2,
      { exNightG with mafia_target := some 2, phase := GamePhase.day,
                      players := killPlayer exNightG.players 2 }) := by
  have h := night_resolution_spec exNightG 0 (by decide) (by decide)
  exact (h.2.2.2 (by decide) (by decide) (by decide)).1

/-- C1: day-vote tallying over the living participants (absent voters
defaulting to skip) eliminates someone iff there is a unique top non-skip
target and its count strictly exceeds the skip count; strict skip
majority yields a skip outcome (the "Everyone skipped" message being its
all-skip form) with no elimination; every remaining case with any
non-skip vote is a tie with no elimination; and in particular equality
of the top non-skip count and the skip count never eliminates. -/
theorem process_voting_results_spec (g : GameState)
    (hp : g.phase ≠ GamePhase.ended) :
    ((∃ t g', process_voting_results g = some (VoteOutcome.eliminated t, g')) ↔
      (dayTopVoted g).length = 1 ∧ skipVotesCount g < dayMaxVotes g) ∧
    (dayMaxVotes g < skipVotesCount g →
      process_voting_results g = some (VoteOutcome.skipped, g) ∨
      process_voting_results g = some (VoteOutcome.everyoneSkipped, g)) ∧
    (nonSkipCounts g ≠ [] →
      ¬((dayTopVoted g).length = 1 ∧ skipVotesCount g < dayMaxVotes g) →
      ¬(dayMaxVotes g < skipVotesCount g) →
      process_voting_results g = some (VoteOutcome.tie, g)) ∧
    (dayMaxVotes g = skipVotesCount g →
      ∀ t g', process_voting_results g ≠ some (VoteOutcome.eliminated t, g')) := by
  have htop : nonSkipCounts g = [] → dayTopVoted g = [] := by
    intro h
    simp [dayTopVoted, h]
  by_cases hns : nonSkipCounts g = []
  · have ht0 : dayTopVoted g = [] := htop hns
    have hres : process_voting_results g
        = some (VoteOutcome.everyoneSkipped, g) := by
      simp [process_voting_results, hp, hns]
    refine ⟨?_, fun _ => Or.inr hres, fun hc => absurd hns hc, ?_⟩
    · constructor
      · rintro ⟨t, g', hg⟩
        rw [hres] at hg
        simp at hg
      · rintro ⟨h1, _⟩
        rw [ht0] at h1
        simp at h1
    · intro _ t g' hg
      rw [hres] at hg
      simp at hg
  · by_cases hskip : dayMaxVotes g < skipVotesCount g
    · have hres : process_voting_results g = some (VoteOutcome.skipped, g) := by
        simp [process_voting_results, hp, hns, hskip]
      refine ⟨?_, fun _ => Or.inl hres, ?_, ?_⟩
      · constructor
        · rintro ⟨t, g', hg⟩
          rw [hres] at hg
          simp at hg
        · rintro ⟨_, h2⟩
          omega
      · intro _ _ hc
        exact absurd hskip hc
      · intro heq
        omega
    · by_cases huniq : (dayTopVoted g).length = 1 ∧
          skipVotesCount g < dayMaxVotes g
      · have hres : process_voting_results g
            = some (VoteOutcome.eliminated ((dayTopVoted g).headD 0),
                { g with players := killPlayer g.players ((dayTopVoted g).headD 0) }) := by
          simp [process_voting_results, hp, hns, hskip, huniq]
        refine ⟨?_, fun hc => absurd hc hskip, ?_, ?_⟩
        · constructor
          · intro _
            exact huniq
          · intro _
            exact ⟨_, _, hres⟩
        · intro _ hc
          exact absurd huniq hc
        · intro heq
          omega
      · have hres : process_voting_results g = some (VoteOutcome.tie, g) := by
          simp [process_voting_results, hp, hns, hskip, huniq]
        refine ⟨?_, fun hc => absurd hc hskip, fun _ _ _ => hres, ?_⟩
        · constructor
          · rintro ⟨t, g', hg⟩
            rw [hres] at hg
            simp at hg
          · intro hc
            exact absurd hc huniq
        · intro _ t g' hg
          rw [hres] at hg
          simp at hg

/-- Witness for C1: with ballots {2: three votes, skip: two}, player 2
is eliminated. -/
theorem process_voting_results_spec_witness :
    ∃ t g', process_voting_results exVoteG
      = some (VoteOutcome.eliminated t, g') :=
  (process_voting_results_spec exVoteG (by decide)).1.mpr (by decide)


/-- C10: when day-vote processing eliminates a participant, the player
list is rewritten only at the eliminated id — ids, roles and every
other participant's alive flag are untouched, and the eliminated
participant's alive flag becomes false; the other session fields the
resolver does not write (phase, ballots, round) are also unchanged. -/
theorem vote_elimination_frame (g : GameState) (t : Int) (g' : GameState)
    (h : process_voting_results g = some (VoteOutcome.eliminated t, g')) :
    g'.players = killPlayer g.players t ∧
    List.Forall₂ (fun q q' => q'.id = q.id ∧ q'.role = q.role ∧
      (q.id = t → q'.is_alive = false) ∧ (q.id ≠ t → q' = q))
      g.players g'.players ∧
    g'.phase = g.phase ∧ g'.round_number = g.round_number ∧
    g'.day_votes = g.day_votes := by
  unfold process_voting_results at h
  by_cases hp : g.phase = GamePhase.ended
  · simp [hp] at h
  · rw [if_neg hp] at h
    by_cases hns : nonSkipCounts g = []
    · simp [hns] at h
    · rw [if_pos hns] at h
      by_cases hskip : dayMaxVotes g < skipVotesCount g
      · simp [hskip] at h
      · rw [if_neg hskip] at h
        by_cases huniq : (dayTopVoted g).length = 1 ∧
            skipVotesCount g < dayMaxVotes g
        · rw [if_pos huniq] at h
          simp only [Option.some.injEq, Prod.mk.injEq,
            VoteOutcome.eliminated.injEq] at h
          obtain ⟨ht, hg⟩ := h
          subst ht
          subst hg
          exact ⟨rfl, killPlayer_frame_all g.players _, rfl, rfl, rfl⟩
        · simp [huniq] at h

/-- Witness for C10 at the concrete elimination of player 2. -/
theorem vote_elimination_frame_witness :
    process_voting_results exVoteG
      = some (VoteOutcome.eliminated 2, exVoteGKilled) ∧
    exVoteGKilled.players = killPlayer exVoteG.players 2 := by
  have h : process_voting_results exVoteG
      = some (VoteOutcome.eliminated 2, exVoteGKilled) := by decide
  exact ⟨h, (vote_elimination_frame exVoteG 2 exVoteGKilled h).1⟩

/-- C5 (corrected): the duplicate-submission rejection exists only for
night actions.  `MafiaConfirmView.confirm` rejects an actor already in
the submitted set and leaves the whole session state unchanged; the
day-vote callback, by contrast, accepts a repeat ballot from a living
voter and overwrites the earlier one in place, so the resubmitted
target is what the tally will read. -/
theorem submission_contract_spec (g : GameState) (pid : Int)
    (tid : Option Int) (voterId targetId : Int) (q : Player)
    (hdup : pid ∈ g.night_actions_submitted)
    (hq : findPlayer g voterId = some q) (halive : q.is_alive = true) :
    mafiaConfirm g pid tid = (NightSubmitResult.duplicate, g) ∧
    (day_vote_callback g voterId targetId).1 = DayVoteResult.recorded ∧
    (day_vote_callback g voterId targetId).2
      = { g with day_votes := dictSet g.day_votes voterId (some targetId) } ∧
    ((day_vote_callback g voterId targetId).2.day_votes).lookup voterId
      = some (some targetId) := by
  refine ⟨?_, ?_, ?_, ?_⟩
  · simp [mafiaConfirm, hdup]
  · simp [day_vote_callback, hq, halive]
  · simp [day_vote_callback, hq, halive]
  · simp [day_vote_callback, hq, halive, dictSet_lookup]

/-- Witness for the corrected C5: in `exSubG` actor 1 is already in the
submitted set, so the night confirm is rejected unchanged, while the
same player's day re-vote for 5 lands in the ballot dict. -/
theorem submission_contract_spec_witness :
    mafiaConfirm exSubG 1 (some 2) = (NightSubmitResult.duplicate, exSubG) ∧
    ((day_vote_callback exSubG 1 5).2.day_votes).lookup 1
      = some (some 5) := by
  have h := submission_contract_spec exSubG 1 (some 2) 1 5
    (mkPlayer 1 "A" Role.citizen true false) (by decide) (by decide) rfl
  exact ⟨h.1, h.2.2.2⟩

/-- Counterexample to C5 as stated: a second day ballot by the same
living actor in the same round does not fail — it is recorded, and it
changes the session state (the stored vote moves from player 2 to
player 3). -/
theorem day_vote_resubmission_counterexample :
    (day_vote_callback exDayG1 1 3).1 = DayVoteResult.recorded ∧
    (day_vote_callback exDayG1 1 3).2 ≠ exDayG1 ∧
    exDayG1.day_votes = [(1, some 2)] ∧
    (day_vote_callback exDayG1 1 3).2.day_votes = [(1, some 3)] := by
  refine ⟨by decide, ?_, by decide, by decide⟩
  intro hcontra
  have h2 : (day_vote_callback exDayG1 1 3).2.day_votes = exDayG1.day_votes := by
    rw [hcontra]
  revert h2
  decide


theorem nightStep_preserves_inv (s : NightCtl) (e : NightEvent)
    (he : e ≠ NightEvent.manualEnd) (h : ctlInv s) : ctlInv (nightStep s e) := by
  obtain ⟨h1, h2⟩ := h
  cases e with
  | quorumCheck =>
      simp only [nightStep]
      split
      · next hcond =>
          obtain ⟨hph, hl, hle⟩ := hcond
          refine ⟨?_, ?_⟩
          · intro hlf
            simp at hlf
          · simp [(h1 hl).2]
      · exact ⟨h1, h2⟩
  | graceWake =>
      simp only [nightStep]
      cases hg : s.gracePending with
      | false =>
          simp only [hg, Bool.false_eq_true, if_false]
          exact ⟨h1, h2⟩
      | true =>
          have hl : s.latch = true := by
            cases hlc : s.latch
            · obtain ⟨hg2, _⟩ := h1 hlc
              rw [hg] at hg2
              simp at hg2
            · rfl
          rw [hg] at h2
          simp only [if_true] at h2
          have hr0 : s.resolvedCount = 0 := by omega
          simp only [if_true]
          by_cases hph : s.phase = GamePhase.ended
          · rw [if_pos hph]
            refine ⟨?_, ?_⟩
            · intro hlf
              rw [hl] at hlf
              simp at hlf
            · simp [hr0]
          · rw [if_neg hph]
            refine ⟨?_, ?_⟩
            · intro hlf
              rw [hl] at hlf
              simp at hlf
            · simp [hr0]
  | manualEnd => exact absurd rfl he
  | forceStop => exact ⟨h1, h2⟩

/-- C7 (corrected, part 1): among the automatic completion paths — a
submission completing quorum via `check_all_night_actions_done`, and
the background polling loop, both of which honour the
`night_auto_end_triggered` latch before scheduling the grace wake-up —
any interleaving that never fires the manual end-night command resolves
the night at most once. -/
theorem nightRun_no_manual_resolves_once (es : List NightEvent)
    (hes : NightEvent.manualEnd ∉ es) (s : NightCtl)
    (hl : s.latch = false) (hg : s.gracePending = false)
    (hr : s.resolvedCount = 0) :
    (nightRun s es).resolvedCount ≤ 1 := by
  have key : ∀ (l : List NightEvent) (s₀ : NightCtl),
      NightEvent.manualEnd ∉ l → ctlInv s₀ → ctlInv (nightRun s₀ l) := by
    intro l
    induction l with
    | nil => intro s₀ _ h; exact h
    | cons e rest ih =>
        intro s₀ hmem h
        have he : e ≠ NightEvent.manualEnd := by
          rintro rfl
          exact hmem (List.mem_cons_self _ _)
        have hrest : NightEvent.manualEnd ∉ rest :=
          fun hh => hmem (List.mem_cons_of_mem _ hh)
        exact ih (nightStep s₀ e) hrest (nightStep_preserves_inv s₀ e he h)
  have h0 : ctlInv s := by
    constructor
    · intro _; exact ⟨hg, hr⟩
    · rw [hr, hg]; simp
  obtain ⟨_, h2⟩ := key es s hes h0
  cases hgp : (nightRun s es).gracePending <;> rw [hgp] at h2 <;> simp at h2 <;>
    omega

/-- Witness for the corrected C7: quorum fires, then the grace timer
resolves, and a later redundant quorum check does not resolve again. -/
theorem nightRun_no_manual_resolves_once_witness :
    (nightRun ctl0 [NightEvent.quorumCheck, NightEvent.graceWake,
      NightEvent.quorumCheck]).resolvedCount ≤ 1 :=
  nightRun_no_manual_resolves_once _ (by decide) ctl0 rfl rfl rfl

/-- Counterexample to C7 as stated: `NightEndView.end_night_button`
checks only that the phase is still NIGHT — not the latch — so a manual
end issued during the pending grace window resolves the night, and the
grace wake-up (which re-checks only `phase == ENDED`, and the phase is
now DAY) resolves it a second time. -/
theorem night_double_resolution_counterexample :
    (nightRun ctl0 [NightEvent.quorumCheck, NightEvent.manualEnd,
      NightEvent.graceWake]).resolvedCount = 2 := by decide


theorem isSpecial_eval_citizen : isSpecial Role.citizen = false := rfl

theorem isSpecial_eval_mafia : isSpecial Role.mafia = true := rfl

theorem isSpecial_eval_doctor : isSpecial Role.doctor = true := rfl

theorem isSpecial_eval_police : isSpecial Role.police = true := rfl

theorem countP_special_split (l : List Player) (f : Player → Bool) :
    List.countP (fun q => f q && (decide (q.role = Role.mafia) && q.is_alive)) l
      + List.countP (fun q => f q && (decide (q.role = Role.doctor) && q.is_alive)) l
      + List.countP (fun q => f q && (decide (q.role = Role.police) && q.is_alive)) l
    = List.countP (fun q => q.is_alive && isSpecial q.role && f q) l := by
  induction l with
  | nil => rfl
  | cons hd tl ih =>
      simp only [List.countP_cons]
      cases hrole : hd.role <;> cases hal : hd.is_alive <;> cases hf : f hd <;>
        simp [hrole, hal, hf, isSpecial_eval_citizen, isSpecial_eval_mafia,
          isSpecial_eval_doctor, isSpecial_eval_police, ih] <;> omega

theorem special_split (ps : List Player) (f : Player → Bool) :
    ((aliveMafiaList ps).filter f).length
      + ((aliveDoctorList ps).filter f).length
      + ((alivePoliceList ps).filter f).length
    = (ps.filter (fun q => q.is_alive && isSpecial q.role && f q)).length := by
  have h := countP_special_split ps f
  simpa [aliveMafiaList, aliveDoctorList, alivePoliceList, List.filter_filter,
    List.countP_eq_length_filter] using h

theorem botPoliceReceived_le (ps : List Player) :
    botPoliceReceived ps
      ≤ ((alivePoliceList ps).filter (fun q => q.isDummy)).length := by
  unfold botPoliceReceived
  have haux : ∀ (l : List Player) (a : Nat),
      l.foldl (fun acc q =>
        acc + (if ps.filter (fun r => r.is_alive && r.id != q.id) ≠ []
               then 1 else 0)) a ≤ a + l.length := by
    intro l
    induction l with
    | nil => intro a; simp
    | cons x xs ih =>
        intro a
        simp only [List.foldl_cons, List.length_cons]
        refine le_trans (ih _) ?_
        split <;> omega
  simpa using haux (((alivePoliceList ps).filter (fun q => q.isDummy))) 0

/-- C8 (corrected): the expected-actions quorum target counts exactly
the living action-capable actors, excluding simulated (dummy) ones in
test mode; and while every increment the auto-action blocks add to
`night_actions_received` is attributable to a living dummy special-role
actor (the bound below), those increments do exist — in test mode every
living dummy doctor adds one — so simulated submissions do count toward
the `received >= expected` comparison the engine waits on. -/
theorem night_quorum_count_spec (ps : List Player) (tm : Bool) :
    night_actions_expected_calc ps tm
      = (ps.filter (fun q =>
          q.is_alive && isSpecial q.role && (!tm || !q.isDummy))).length ∧
    (ps.filter (fun q => q.is_alive) ≠ [] →
      ((aliveDoctorList ps).filter (fun q => q.isDummy)).length
        ≤ botAutoReceived ps true) ∧
    botAutoReceived ps tm
      ≤ (ps.filter (fun q =>
          q.is_alive && isSpecial q.role && q.isDummy)).length := by
  refine ⟨?_, ?_, ?_⟩
  · cases tm with
    | false =>
        have h := special_split ps (fun _ => true)
        simpa [night_actions_expected_calc] using h
    | true =>
        have h := special_split ps (fun q => !q.isDummy)
        simpa [night_actions_expected_calc] using h
  · intro halive
    unfold botAutoReceived
    simp only [halive, if_true, reduceIte]
    split <;> omega
  · cases tm with
    | false => simp [botAutoReceived]
    | true =>
        have h := special_split ps (fun q => q.isDummy)
        have hpol := botPoliceReceived_le ps
        unfold botAutoReceived
        simp only [if_true, reduceIte]
        rw [← h]
        split <;> split <;> omega

/-- Witness for the corrected C8: in the concrete test-mode roster the
dummy doctor's auto-action is counted in the received total. -/
theorem night_quorum_count_spec_witness :
    ((aliveDoctorList exC8).filter (fun q => q.isDummy)).length
      ≤ botAutoReceived exC8 true :=
  (night_quorum_count_spec exC8 true).2.1 (by decide)

/-- Counterexample to C8 as stated: in test mode with one living human
mafia (who has submitted nothing) and one living dummy doctor, the
expected count is 1 — but the dummy doctor's auto-action increments the
received counter to 1 as well, so the quorum comparison
`received >= expected` is already satisfied by a simulated actor's
submission alone. -/
theorem simulated_received_counterexample :
    night_actions_expected_calc exC8 true = 1 ∧
    botAutoReceived exC8 true = 1 := by decide

end Mafia
